import Mathlib

/-!
Verification of the FinResearch data-normalization and report-parsing logic.

Part 1 embeds `fetch_market_data` from
`beginner/submissions/team-members/yan-cotta/week2_data_fetcher.py`, in the
form the specification calls `normalize(ticker, raw, history)`: the network
retrievals (`yf.Ticker`, `stock.info`, `stock.history`) are replaced by a
caller-supplied raw quote record and a caller-supplied list of trailing daily
closes (the same list serves the `period="1d"` emptiness probe and the
`period="5d"` close series).  Python numbers are modelled as exact rationals,
Python values of mixed type as `PyVal` (a number, a string, or `None`;
a key absent from the record behaves as `None`, exactly as `dict.get` does).
Characters are treated as ASCII (Python's `str.upper`/`str.isalnum` are
Unicode-aware; every ticker and header in the spec is ASCII).
Exceptions raised inside the `try:` block are modelled with `Except PyExc`;
the top-level handler converts them to an error envelope.

Part 2 embeds `parse_report_sections` from
`advanced/submissions/team-members/prateek-mulye/app.py`.  The six
`re.search` calls are embedded by their semantics on these patterns: a
pattern `H\n(.*?)\n##` (with `re.DOTALL`) matches at the leftmost occurrence
of the literal `H` followed by a newline, and the lazy group captures up to
the first later occurrence of newline-`##`; the pattern `H\n(.*?)$` captures
from the leftmost occurrence of `H` plus newline to the end of the document,
a single trailing newline excluded.
-/

/-- A loosely-typed Python value as it appears in the provider record:
a number (int/float, modelled as an exact rational), a string, or `None`.
An absent key is modelled as `vnone`, matching `dict.get`. -/
inductive PyVal where
  | vnum (q : ℚ)
  | vstr (s : String)
  | vnone
deriving DecidableEq

/-- Python truthiness of a `PyVal`: `None`, `0` and `""` are falsy. -/
def PyVal.truthy : PyVal → Bool
  | PyVal.vnum q => decide (q ≠ 0)
  | PyVal.vstr s => decide (s ≠ "")
  | PyVal.vnone => false

/-- The raw provider record (`info` in the source): an associative map from
string keys to values. -/
abbrev RawQuote := List (String × PyVal)

/-- Python `info.get(key, default)`. -/
def pyGetD (info : RawQuote) (key : String) (dflt : PyVal) : PyVal :=
  match List.lookup key (info : List (String × PyVal)) with
  | some v => v
  | none => dflt

/-- Python `info.get(key)`: absent keys give `None`. -/
def pyGet (info : RawQuote) (key : String) : PyVal :=
  pyGetD info key PyVal.vnone

/-- Python `a or b` on values: the first operand if it is truthy, otherwise
the second operand (whatever it is). -/
def pyOr (a b : PyVal) : PyVal :=
  if a.truthy then a else b

/-- Whitespace for Python `str.strip`. -/
def pySpace (c : Char) : Bool :=
  c = ' ' || c = '\t' || c = '\n' || c = '\r' || c = '\x0b' || c = '\x0c'

/-- Python `str.strip` on a character list: drop whitespace from both ends
(right end first; the order does not matter). -/
def pyStrip (l : List Char) : List Char :=
  ((l.reverse.dropWhile pySpace).reverse).dropWhile pySpace

/-- Python `ticker.strip().upper()` (ASCII). -/
def pyNormalizeTicker (t : String) : String :=
  String.mk ((pyStrip t.toList).map Char.toUpper)

/-- Python `str.isalnum` (ASCII): non-empty and all characters alphanumeric. -/
def pyIsAlnum (s : String) : Bool :=
  decide (s ≠ "") && s.toList.all Char.isAlphanum

/-- The validation test of step 3.1:
`not ticker or not ticker.isalnum() or len(ticker) > 5`. -/
def invalidTicker (t : String) : Prop :=
  t = "" ∨ pyIsAlnum t = false ∨ 5 < t.length

instance (t : String) : Decidable (invalidTicker t) := by
  unfold invalidTicker; infer_instance

/-- A Python exception: its type name and its message. -/
structure PyExc where
  kind : String
  msg : String
deriving DecidableEq

/-- Rounding half-to-even of a rational to an integer, the tie-breaking rule
used by Python's `round` and format specifiers (floats are modelled as exact
rationals). -/
def roundHalfEven (x : ℚ) : ℤ :=
  let f := Rat.floor x
  let r := x - (f : ℚ)
  if r < 1/2 then f
  else if 1/2 < r then f + 1
  else if f % 2 = 0 then f else f + 1

/-- Python `round(x, 2)` on an exact rational. -/
def round2 (x : ℚ) : ℚ :=
  (roundHalfEven (x * 100) : ℚ) / 100

/-- Decimal digits of a natural number, most significant first. -/
def natDigits (n : ℕ) : List Char :=
  (Nat.toDigits 10 n)

/-- Group a reversed digit list into blocks of three (for thousands
separation). -/
def chunkRev : List Char → List (List Char)
  | [] => []
  | [a] => [[a]]
  | [a, b] => [[a, b]]
  | [a, b, c] => [[a, b, c]]
  | a :: b :: c :: d :: rest => [a, b, c] :: chunkRev (d :: rest)

/-- Python `f"{x:,.0f}"` for a non-negative rational: round half-even to an
integer and insert thousands separators. -/
def fmtThousands (x : ℚ) : String :=
  let n := (roundHalfEven x).toNat
  let groups := (chunkRev (natDigits n).reverse).map (fun g => String.mk g.reverse)
  String.intercalate "," groups.reverse

/-- Python `f"{x:.2f}"` for a non-negative rational: two decimal places,
half-even. -/
def fmtFixed2 (x : ℚ) : String :=
  let n := roundHalfEven (x * 100)
  let whole := n / 100
  let frac := (n % 100).toNat
  let fracStr := if frac < 10 then "0" ++ String.mk (natDigits frac)
                 else String.mk (natDigits frac)
  String.mk (natDigits whole.toNat) ++ "." ++ fracStr

/-- The market-cap formatting block of step 3.3:
`isinstance` check, the `> 0` guard and the T/B/M thresholds. -/
def formatMarketCap (mc : PyVal) : String :=
  match mc with
  | PyVal.vnum q =>
    if 0 < q then
      if 10^12 ≤ q then "$" ++ fmtFixed2 (q / 10^12) ++ "T"
      else if 10^9 ≤ q then "$" ++ fmtFixed2 (q / 10^9) ++ "B"
      else if 10^6 ≤ q then "$" ++ fmtFixed2 (q / 10^6) ++ "M"
      else "$" ++ fmtThousands q
    else "N/A"
  | _ => "N/A"

/-- The price-resolution chain of step 3.3:
`info.get('regularMarketPrice') or info.get('currentPrice') or
info.get('previousClose')`. -/
def resolvePrice (info : RawQuote) : PyVal :=
  pyOr (pyGet info "regularMarketPrice")
    (pyOr (pyGet info "currentPrice") (pyGet info "previousClose"))

/-- The price-change block of step 3.3.  With at least two closes it takes
the last two, computes `today - prev` and `(today - prev)/prev * 100`, and
applies the `round(x, 2) if x else None` guards; the percent computation
raises `ZeroDivisionError` when the prior close is zero (closes are modelled
as Python floats).  With fewer than two closes both results are `None`. -/
def priceChangeCalc (history : List ℚ) : Except PyExc (Option ℚ × Option ℚ) :=
  if 2 ≤ history.length then
    let prev := history.getD (history.length - 2) 0
    let today := history.getD (history.length - 1) 0
    let pc := today - prev
    if prev = 0 then
      Except.error { kind := "ZeroDivisionError", msg := "float division by zero" }
    else
      let pct := pc / prev * 100
      Except.ok (if pc = 0 then none else some (round2 pc),
                 if pct = 0 then none else some (round2 pct))
  else
    Except.ok (none, none)

/-- The `round(current_price, 2) if current_price else None` entry of the
data dictionary: a falsy value gives `None`, a truthy number is rounded, and
a truthy string makes `round` raise `TypeError`. -/
def pyRoundPrice (v : PyVal) : Except PyExc (Option ℚ) :=
  if v.truthy then
    match v with
    | PyVal.vnum q => Except.ok (some (round2 q))
    | PyVal.vstr _ =>
      Except.error { kind := "TypeError",
                     msg := "type str doesn\x27t define __round__ method" }
    | PyVal.vnone => Except.ok none
  else Except.ok none

/-- The normalized data dictionary built in step 3.3. -/
structure NormalizedData where
  company_name : PyVal
  sector : PyVal
  industry : PyVal
  website : PyVal
  description : PyVal
  current_price : Option ℚ
  currency : PyVal
  price_change : Option ℚ
  price_change_percent : Option ℚ
  market_cap : PyVal
  market_cap_formatted : String
  volume : PyVal
  average_volume : PyVal
  pe_ratio : PyVal
  forward_pe : PyVal
  eps : PyVal
  beta : PyVal
  day_high : PyVal
  day_low : PyVal
  fifty_two_week_high : PyVal
  fifty_two_week_low : PyVal
  dividend_yield : PyVal
  dividend_rate : PyVal
deriving DecidableEq

/-- The result envelope.  The wall-clock `timestamp` field is omitted from
the model (it is the only time-dependent field and no claim depends on it). -/
structure FetchResult where
  success : Bool
  ticker : String
  data : Option NormalizedData
  error : Option String
deriving DecidableEq

/-- The invalid-ticker error message. -/
def invalidMsg (t : String) : String :=
  "Invalid ticker format: \x27" ++ t ++ "\x27. Expected 1-5 alphanumeric characters."

/-- The envelope returned by the validation failure branch. -/
def invalidResult (t : String) : FetchResult :=
  { success := false, ticker := t, data := none, error := some (invalidMsg t) }

/-- The not-found error message. -/
def notFoundMsg (t : String) : String :=
  "Ticker \x27" ++ t ++ "\x27 not found. Please verify the symbol."

/-- The envelope returned by the emptiness-check branch. -/
def notFoundResult (t : String) : FetchResult :=
  { success := false, ticker := t, data := none, error := some (notFoundMsg t) }

/-- Assembly of the data dictionary of step 3.3 from the raw record and the
already-computed derived values. -/
def buildData (ticker : String) (info : RawQuote) (cpr : Option ℚ)
    (pc pct : Option ℚ) : NormalizedData :=
  { company_name :=
      pyOr (pyGet info "shortName") (pyOr (pyGet info "longName") (PyVal.vstr ticker))
  , sector := pyGetD info "sector" (PyVal.vstr "N/A")
  , industry := pyGetD info "industry" (PyVal.vstr "N/A")
  , website := pyGetD info "website" (PyVal.vstr "N/A")
  , description := pyGetD info "longBusinessSummary" (PyVal.vstr "No description available.")
  , current_price := cpr
  , currency := pyGetD info "currency" (PyVal.vstr "USD")
  , price_change := pc
  , price_change_percent := pct
  , market_cap := pyGetD info "marketCap" (PyVal.vnum 0)
  , market_cap_formatted := formatMarketCap (pyGetD info "marketCap" (PyVal.vnum 0))
  , volume := pyGetD info "volume" (PyVal.vstr "N/A")
  , average_volume := pyGetD info "averageVolume" (PyVal.vstr "N/A")
  , pe_ratio := pyGetD info "trailingPE" (PyVal.vstr "N/A")
  , forward_pe := pyGetD info "forwardPE" (PyVal.vstr "N/A")
  , eps := pyGetD info "trailingEps" (PyVal.vstr "N/A")
  , beta := pyGetD info "beta" (PyVal.vstr "N/A")
  , day_high := pyGetD info "dayHigh" (PyVal.vstr "N/A")
  , day_low := pyGetD info "dayLow" (PyVal.vstr "N/A")
  , fifty_two_week_high := pyGetD info "fiftyTwoWeekHigh" (PyVal.vstr "N/A")
  , fifty_two_week_low := pyGetD info "fiftyTwoWeekLow" (PyVal.vstr "N/A")
  , dividend_yield := pyGetD info "dividendYield" (PyVal.vstr "N/A")
  , dividend_rate := pyGetD info "dividendRate" (PyVal.vstr "N/A") }

/-- The body of the `try:` block of `fetch_market_data`, for an
already-validated ticker.  The emptiness check mirrors
`if not info or info.get('regularMarketPrice') is None and
info.get('currentPrice') is None:` (Python precedence: `or` binds weaker than
`and`) followed by the history probe; then, in source order, price
resolution, the price-change computation (which may raise), the market-cap
formatting, and the dictionary construction, whose `current_price` entry may
raise. -/
def fetchBody (ticker : String) (info : RawQuote) (history : List ℚ) :
    Except PyExc FetchResult :=
  if ((info : List (String × PyVal)) = [] ∨
      (pyGet info "regularMarketPrice" = PyVal.vnone ∧
       pyGet info "currentPrice" = PyVal.vnone)) ∧ history = [] then
    Except.ok (notFoundResult ticker)
  else
    match priceChangeCalc history with
    | Except.error e => Except.error e
    | Except.ok (pc, pct) =>
      match pyRoundPrice (resolvePrice info) with
      | Except.error e => Except.error e
      | Except.ok cpr =>
        Except.ok
          { success := true, ticker := ticker,
            data := some (buildData ticker info cpr pc pct), error := none }

/-- `fetch_market_data`, the specification's
`normalize(ticker, raw, history)`: ticker cleaning and validation, then the
`try:` body, with any exception converted by the top-level handler into an
error envelope. -/
def fetch_market_data (ticker : String) (info : RawQuote) (history : List ℚ) :
    FetchResult :=
  if invalidTicker (pyNormalizeTicker ticker) then
    invalidResult (pyNormalizeTicker ticker)
  else
    match fetchBody (pyNormalizeTicker ticker) info history with
    | Except.ok r => r
    | Except.error e =>
      { success := false, ticker := pyNormalizeTicker ticker, data := none,
        error := some (e.kind ++ ": " ++ e.msg) }

/-- First index at which `pat` occurs as a contiguous sublist of `s`
(the anchor position of `re.search` for a pattern headed by the literal
`pat`), or `none`. -/
def findFrom (pat : List Char) : List Char → Option Nat
  | [] => if pat.isPrefixOf [] then some 0 else none
  | c :: t =>
    if pat.isPrefixOf (c :: t) then some 0
    else (findFrom pat t).map (· + 1)

/-- Drop a single trailing newline, the set of positions at which `$`
matches (without `re.MULTILINE`). -/
def chopTrailingNl (l : List Char) : List Char :=
  if l.getLast? = some '\n' then l.dropLast else l

/-- Semantics of `re.search(header\n(.*?)\n##, doc, re.DOTALL).group(1)`
followed by `.strip()`: anchor at the first occurrence of the header line,
capture lazily up to the first later newline-`##`, and trim.  If the first
occurrence of the header is not followed anywhere by newline-`##` no later
occurrence can be (it sees a strict suffix), so the whole search fails, as
embedded here. -/
def matchSectionMid (header : String) (doc : List Char) : Option (List Char) :=
  match findFrom (header.toList ++ ['\n']) doc with
  | none => none
  | some i =>
    let rest := doc.drop (i + header.length + 1)
    match findFrom ['\n', '#', '#'] rest with
    | none => none
    | some j => some (pyStrip (rest.take j))

/-- Semantics of `re.search(header\n(.*?)$, doc, re.DOTALL).group(1)`
followed by `.strip()`: anchor at the first occurrence of the header line
and capture to the end of the document, a single trailing newline excluded
(the lazy group stops at the earliest position where `$` matches). -/
def matchSectionEnd (header : String) (doc : List Char) : Option (List Char) :=
  match findFrom (header.toList ++ ['\n']) doc with
  | none => none
  | some i =>
    let rest := doc.drop (i + header.length + 1)
    some (pyStrip (chopTrailingNl rest))

/-- The fixed six-key mapping returned by `parse_report_sections`. -/
structure ReportSections where
  executiveSummary : String
  companySnapshot : String
  financialIndicators : String
  newsSentiment : String
  risksOpportunities : String
  finalPerspective : String
deriving DecidableEq

/-- A section value: the stripped capture when the pattern matched, the
per-section default placeholder otherwise. -/
def sectionValue (m : Option (List Char)) (dflt : String) : String :=
  match m with
  | none => dflt
  | some l => String.mk l

/-- The six literal section headers. -/
def hdr1 : String := "## 1. Executive Summary"

def hdr2 : String := "## 2. Company Snapshot"

def hdr3 : String := "## 3. Key Financial Indicators"

def hdr4 : String := "## 4. Recent News & Sentiment"

def hdr5 : String := "## 5. Risks & Opportunities"

def hdr6 : String := "## 6. Final Perspective"

/-- `parse_report_sections` from `app.py`: six pattern extractions over the
document, with a distinct default placeholder per section. -/
def parse_report_sections (report_text : String) : ReportSections :=
  { executiveSummary :=
      sectionValue (matchSectionMid hdr1 report_text.toList) "No summary available."
  , companySnapshot :=
      sectionValue (matchSectionMid hdr2 report_text.toList) "No snapshot available."
  , financialIndicators :=
      sectionValue (matchSectionMid hdr3 report_text.toList) "No data available."
  , newsSentiment :=
      sectionValue (matchSectionMid hdr4 report_text.toList) "No news available."
  , risksOpportunities :=
      sectionValue (matchSectionMid hdr5 report_text.toList) "No analysis available."
  , finalPerspective :=
      sectionValue (matchSectionEnd hdr6 report_text.toList) "No conclusion available." }

/-- The header line of a section: the header text followed by a newline. -/
def patOf (h : String) : List Char := h.toList ++ ['\n']

/-- A well-formed six-section report document built from six section
bodies: each header line in order, each body followed by a newline
separator, the last body ending the document. -/
def mkReportDoc (b1 b2 b3 b4 b5 b6 : List Char) : List Char :=
  patOf hdr1 ++ b1 ++ ['\n'] ++ patOf hdr2 ++ b2 ++ ['\n'] ++
  patOf hdr3 ++ b3 ++ ['\n'] ++ patOf hdr4 ++ b4 ++ ['\n'] ++
  patOf hdr5 ++ b5 ++ ['\n'] ++ patOf hdr6 ++ b6

/-- The "no occurrence of `pat` starting inside `xs`" invariant used to
locate first occurrences: no suffix of `xs ++ ys` that starts inside `xs`
begins with `pat`. -/
def CleanAt (pat xs ys : List Char) : Prop :=
  ∀ j, j < xs.length → ¬ pat.isPrefixOf (xs.drop j ++ ys) = true

/-- A decidable sufficient condition for `CleanAt pat xs ys` that does not
look at `ys`: at each start position inside `xs`, either `pat` fits inside
the remaining part of `xs` and is not a prefix of it, or the remaining part
of `xs` is too short and is not itself a prefix of `pat`. -/
def cleanCheck (pat xs : List Char) : Bool :=
  (List.range xs.length).all (fun j =>
    if pat.length ≤ (xs.drop j).length then !(pat.isPrefixOf (xs.drop j))
    else !((xs.drop j).isPrefixOf pat))

/-- A header line minus its two leading hash marks. -/
def hdrTail (h : String) : List Char := (patOf h).drop 2

/-- The spec scenario document that omits section 3 entirely. -/
def missing3Doc : String :=
  "## 1. Executive Summary\nAAA\n## 2. Company Snapshot\nBBB\n## 4. Recent News & Sentiment\nDDD\n## 5. Risks & Opportunities\nEEE\n## 6. Final Perspective\nFFF"

/-- A document whose first section body is empty: its header is immediately
followed by the next section header. -/
def c10Doc : String :=
  "## 1. Executive Summary\n## 2. Company Snapshot\nBBB\n## 3. Key Financial Indicators\nCCC\n## 6. Final Perspective\nFFF"

instance {ε α : Type} [DecidableEq ε] [DecidableEq α] : DecidableEq (Except ε α) := fun x y =>
  match x, y with
  | Except.ok a, Except.ok b =>
    if h : a = b then isTrue (by rw [h])
    else isFalse (by intro hc; injection hc; contradiction)
  | Except.ok _, Except.error _ => isFalse (by intro hc; exact Except.noConfusion hc)
  | Except.error _, Except.ok _ => isFalse (by intro hc; exact Except.noConfusion hc)
  | Except.error e, Except.error f =>
    if h : e = f then isTrue (by rw [h])
    else isFalse (by intro hc; injection hc; contradiction)

/-! ## Lemmas about the normalizer -/

theorem fetchBody_ok_shape (t : String) (info : RawQuote) (hist : List ℚ)
    (r : FetchResult) (h : fetchBody t info hist = Except.ok r) :
    r = notFoundResult t ∨
      ∃ pc pct cpr, priceChangeCalc hist = Except.ok (pc, pct) ∧
        pyRoundPrice (resolvePrice info) = Except.ok cpr ∧
        r = { success := true, ticker := t,
              data := some (buildData t info cpr pc pct), error := none } := by
  unfold fetchBody at h
  split_ifs at h with hc
  · left
    injection h with h2
    exact h2.symm
  · cases hp : priceChangeCalc hist with
    | error e => rw [hp] at h; exact absurd h (by simp)
    | ok p =>
      rw [hp] at h
      obtain ⟨pc, pct⟩ := p
      cases hr : pyRoundPrice (resolvePrice info) with
      | error e => rw [hr] at h; exact absurd h (by simp)
      | ok cpr =>
        rw [hr] at h
        injection h with h2
        exact Or.inr ⟨pc, pct, cpr, rfl, rfl, h2.symm⟩

/-- Claim C1: for every call to `fetch_market_data`, the returned envelope
satisfies the invariant that `success = true` exactly when the data field is
non-null and the error field is null, and `success = false` exactly when the
data field is null and the error field is a non-null string. -/
theorem spec_C1 (ticker : String) (info : RawQuote) (history : List ℚ) :
    ((fetch_market_data ticker info history).success = true ↔
      (fetch_market_data ticker info history).data ≠ none ∧
      (fetch_market_data ticker info history).error = none) ∧
    ((fetch_market_data ticker info history).success = false ↔
      (fetch_market_data ticker info history).data = none ∧
      (fetch_market_data ticker info history).error ≠ none) := by
  unfold fetch_market_data
  split_ifs with h
  · simp [invalidResult]
  · cases hb : fetchBody (pyNormalizeTicker ticker) info history with
    | error e => simp
    | ok r =>
      rcases fetchBody_ok_shape _ _ _ _ hb with h1 | ⟨pc, pct, cpr, _, _, h1⟩ <;>
        subst h1 <;> simp [notFoundResult]

theorem strAppend_assoc (a b c : String) : a ++ b ++ c = a ++ (b ++ c) :=
  String.append_assoc a b c

/-- Claim C3: whenever the trimmed, uppercased ticker is empty, contains a
non-alphanumeric character, or is longer than 5 characters,
`fetch_market_data` returns `success = false` with null data and an error
starting with "Invalid ticker format", and the result does not depend on the
raw record or the history (no provider lookup is attempted). -/
theorem spec_C3 (ticker : String) (info : RawQuote) (history : List ℚ)
    (h : invalidTicker (pyNormalizeTicker ticker)) :
    fetch_market_data ticker info history = invalidResult (pyNormalizeTicker ticker) ∧
    (∀ (info2 : RawQuote) (history2 : List ℚ),
      fetch_market_data ticker info history = fetch_market_data ticker info2 history2) ∧
    (invalidResult (pyNormalizeTicker ticker)).success = false ∧
    (invalidResult (pyNormalizeTicker ticker)).data = none ∧
    ∃ tail, (invalidResult (pyNormalizeTicker ticker)).error =
      some ("Invalid ticker format" ++ tail) := by
  have he : ∀ (i2 : RawQuote) (h2 : List ℚ),
      fetch_market_data ticker i2 h2 = invalidResult (pyNormalizeTicker ticker) := by
    intro i2 h2
    unfold fetch_market_data
    rw [if_pos h]
  refine ⟨he info history, fun i2 h2 => (he info history).trans (he i2 h2).symm,
    rfl, rfl,
    ": \x27" ++ (pyNormalizeTicker ticker ++ "\x27. Expected 1-5 alphanumeric characters."),
    ?_⟩
  have hlit : "Invalid ticker format: \x27" = "Invalid ticker format" ++ ": \x27" := by decide
  simp only [invalidResult, invalidMsg, hlit, strAppend_assoc]

/-- Claim C3 witness: the ticker "AB-C" contains a non-alphanumeric
character and is rejected without any provider lookup. -/
theorem spec_C3_witness :
    invalidTicker (pyNormalizeTicker "AB-C") ∧
    fetch_market_data "AB-C" [("regularMarketPrice", PyVal.vnum 1)] [5] =
      invalidResult (pyNormalizeTicker "AB-C") := by
  refine ⟨by decide, ?_⟩
  exact (spec_C3 "AB-C" [("regularMarketPrice", PyVal.vnum 1)] [5] (by decide)).1

/-- Claim C2: the `market_cap_formatted` field of every normalized output is
determined by the raw numeric `marketCap` with the exact thresholds of the
source: at least 1e12 gives the T form, at least 1e9 the B form, at least
1e6 the M form, positive below 1e6 the thousands-separated integer form, and
zero, negative, absent or non-numeric values give "N/A"; in particular
2500000000 formats as "$2.50B", 999 as "$999" and 0 as "N/A". -/
theorem spec_C2 :
    (∀ (t : String) (info : RawQuote) (hist : List ℚ) (d : NormalizedData),
      (fetch_market_data t info hist).data = some d →
      d.market_cap_formatted = formatMarketCap (pyGetD info "marketCap" (PyVal.vnum 0))) ∧
    (∀ q : ℚ,
      (10^12 ≤ q → formatMarketCap (PyVal.vnum q) = "$" ++ fmtFixed2 (q / 10^12) ++ "T") ∧
      (10^9 ≤ q → q < 10^12 → formatMarketCap (PyVal.vnum q) = "$" ++ fmtFixed2 (q / 10^9) ++ "B") ∧
      (10^6 ≤ q → q < 10^9 → formatMarketCap (PyVal.vnum q) = "$" ++ fmtFixed2 (q / 10^6) ++ "M") ∧
      (0 < q → q < 10^6 → formatMarketCap (PyVal.vnum q) = "$" ++ fmtThousands q) ∧
      (q ≤ 0 → formatMarketCap (PyVal.vnum q) = "N/A")) ∧
    (∀ s, formatMarketCap (PyVal.vstr s) = "N/A") ∧
    formatMarketCap PyVal.vnone = "N/A" ∧
    (∀ info : RawQuote, List.lookup "marketCap" info = none →
      formatMarketCap (pyGetD info "marketCap" (PyVal.vnum 0)) = "N/A") ∧
    formatMarketCap (PyVal.vnum 2500000000) = "$2.50B" ∧
    formatMarketCap (PyVal.vnum 999) = "$999" ∧
    formatMarketCap (PyVal.vnum 0) = "N/A" := by
  have hnum : ∀ q : ℚ,
      (10^12 ≤ q → formatMarketCap (PyVal.vnum q) = "$" ++ fmtFixed2 (q / 10^12) ++ "T") ∧
      (10^9 ≤ q → q < 10^12 → formatMarketCap (PyVal.vnum q) = "$" ++ fmtFixed2 (q / 10^9) ++ "B") ∧
      (10^6 ≤ q → q < 10^9 → formatMarketCap (PyVal.vnum q) = "$" ++ fmtFixed2 (q / 10^6) ++ "M") ∧
      (0 < q → q < 10^6 → formatMarketCap (PyVal.vnum q) = "$" ++ fmtThousands q) ∧
      (q ≤ 0 → formatMarketCap (PyVal.vnum q) = "N/A") := by
    intro q
    refine ⟨fun h1 => ?_, fun h2 h2u => ?_, fun h3 h3u => ?_, fun h4 h4u => ?_, fun h5 => ?_⟩
    · have h0 : 0 < q := lt_of_lt_of_le (by norm_num) h1
      simp only [formatMarketCap, if_pos h0, if_pos h1]
    · have h0 : 0 < q := lt_of_lt_of_le (by norm_num) h2
      simp only [formatMarketCap, if_pos h0, if_neg (not_le.mpr h2u), if_pos h2]
    · have h0 : 0 < q := lt_of_lt_of_le (by norm_num) h3
      have hb : ¬ (10:ℚ)^9 ≤ q := not_le.mpr h3u
      have ht : ¬ (10:ℚ)^12 ≤ q := by
        intro hcon
        exact hb (le_trans (by norm_num) hcon)
      simp only [formatMarketCap, if_pos h0, if_neg ht, if_neg hb, if_pos h3]
    · have hm : ¬ (10:ℚ)^6 ≤ q := not_le.mpr h4u
      have hb : ¬ (10:ℚ)^9 ≤ q := by
        intro hcon
        exact hm (le_trans (by norm_num) hcon)
      have ht : ¬ (10:ℚ)^12 ≤ q := by
        intro hcon
        exact hm (le_trans (by norm_num) hcon)
      simp only [formatMarketCap, if_pos h4, if_neg ht, if_neg hb, if_neg hm]
    · simp only [formatMarketCap, if_neg (not_lt.mpr h5)]
  have hdata : ∀ (t : String) (info : RawQuote) (hist : List ℚ) (d : NormalizedData),
      (fetch_market_data t info hist).data = some d →
      d.market_cap_formatted = formatMarketCap (pyGetD info "marketCap" (PyVal.vnum 0)) := by
    intro t info hist d hd
    unfold fetch_market_data at hd
    split_ifs at hd with hv
    · exact absurd hd (by simp [invalidResult])
    · cases hb : fetchBody (pyNormalizeTicker t) info hist with
      | error e => rw [hb] at hd; exact absurd hd (by simp)
      | ok r =>
        rw [hb] at hd
        rcases fetchBody_ok_shape _ _ _ _ hb with h1 | ⟨pc, pct, cpr, _, _, h1⟩
        · subst h1; exact absurd hd (by simp [notFoundResult])
        · subst h1
          have hd2 : some (buildData (pyNormalizeTicker t) info cpr pc pct) = some d := hd
          injection hd2 with hd3
          rw [← hd3]
          rfl
  refine ⟨hdata, hnum, fun s => rfl, rfl, ?_, ?_, ?_, ?_⟩
  · intro info hl
    simp only [pyGetD, hl]
    norm_num [formatMarketCap]
  · rw [(hnum 2500000000).2.1 (by norm_num) (by norm_num)]
    with_unfolding_all decide
  · rw [(hnum 999).2.2.2.1 (by norm_num) (by norm_num)]
    with_unfolding_all decide
  · norm_num [formatMarketCap]

/-- Claim C2 witness: the threshold cases instantiated at 3e12 (T form),
2.5e9 (B form), 1234567 (M form) and 999 (thousands form), and the
field-determination fact instantiated on a concrete fetch. -/
theorem spec_C2_witness :
    ((10:ℚ)^12 ≤ 3*10^12 ∧
      formatMarketCap (PyVal.vnum (3*10^12)) = "$" ++ fmtFixed2 ((3*10^12 : ℚ) / 10^12) ++ "T") ∧
    ((10:ℚ)^9 ≤ 2500000000 ∧ (2500000000:ℚ) < 10^12 ∧
      formatMarketCap (PyVal.vnum 2500000000) = "$" ++ fmtFixed2 ((2500000000:ℚ) / 10^9) ++ "B") ∧
    ((10:ℚ)^6 ≤ 1234567 ∧ (1234567:ℚ) < 10^9 ∧
      formatMarketCap (PyVal.vnum 1234567) = "$" ++ fmtFixed2 ((1234567:ℚ) / 10^6) ++ "M") ∧
    ((0:ℚ) < 999 ∧ (999:ℚ) < 10^6 ∧
      formatMarketCap (PyVal.vnum 999) = "$" ++ fmtThousands 999) ∧
    ((-5:ℚ) ≤ 0 ∧ formatMarketCap (PyVal.vnum (-5)) = "N/A") ∧
    ((fetch_market_data "AAPL"
        [("marketCap", PyVal.vnum 2500000000), ("regularMarketPrice", PyVal.vnum 100)]
        []).data.map NormalizedData.market_cap_formatted =
      some (formatMarketCap (pyGetD
        [("marketCap", PyVal.vnum 2500000000), ("regularMarketPrice", PyVal.vnum 100)]
        "marketCap" (PyVal.vnum 0)))) := by
  refine ⟨⟨by norm_num, (spec_C2.2.1 (3*10^12)).1 (by norm_num)⟩,
    ⟨by norm_num, by norm_num, (spec_C2.2.1 2500000000).2.1 (by norm_num) (by norm_num)⟩,
    ⟨by norm_num, by norm_num, (spec_C2.2.1 1234567).2.2.1 (by norm_num) (by norm_num)⟩,
    ⟨by norm_num, by norm_num, (spec_C2.2.1 999).2.2.2.1 (by norm_num) (by norm_num)⟩,
    ⟨by norm_num, (spec_C2.2.1 (-5)).2.2.2.2 (by norm_num)⟩, ?_⟩
  cases hd : (fetch_market_data "AAPL"
      [("marketCap", PyVal.vnum 2500000000), ("regularMarketPrice", PyVal.vnum 100)]
      []).data with
  | none => exact absurd hd (by with_unfolding_all decide)
  | some d =>
    exact congrArg some (spec_C2.1 "AAPL" _ [] d hd)

theorem data_some_shape (t : String) (info : RawQuote) (hist : List ℚ)
    (d : NormalizedData) (hd : (fetch_market_data t info hist).data = some d) :
    ∃ pc pct cpr, priceChangeCalc hist = Except.ok (pc, pct) ∧
      pyRoundPrice (resolvePrice info) = Except.ok cpr ∧
      d = buildData (pyNormalizeTicker t) info cpr pc pct := by
  unfold fetch_market_data at hd
  split_ifs at hd with hv
  · exact absurd hd (by simp [invalidResult])
  · cases hb : fetchBody (pyNormalizeTicker t) info hist with
    | error e => rw [hb] at hd; exact absurd hd (by simp)
    | ok r =>
      rw [hb] at hd
      rcases fetchBody_ok_shape _ _ _ _ hb with h1 | ⟨pc, pct, cpr, hp, hr, h1⟩
      · subst h1; exact absurd hd (by simp [notFoundResult])
      · subst h1
        have hd2 : some (buildData (pyNormalizeTicker t) info cpr pc pct) = some d := hd
        injection hd2 with hd3
        exact ⟨pc, pct, cpr, hp, hr, hd3.symm⟩

theorem priceChangeCalc_eq (history : List ℚ) :
    priceChangeCalc history =
      if 2 ≤ history.length then
        if history.getD (history.length - 2) 0 = 0 then
          Except.error { kind := "ZeroDivisionError", msg := "float division by zero" }
        else
          Except.ok
            (if history.getD (history.length - 1) 0 - history.getD (history.length - 2) 0 = 0
             then none
             else some (round2 (history.getD (history.length - 1) 0 -
               history.getD (history.length - 2) 0)),
             if (history.getD (history.length - 1) 0 - history.getD (history.length - 2) 0) /
                  history.getD (history.length - 2) 0 * 100 = 0
             then none
             else some (round2 ((history.getD (history.length - 1) 0 -
               history.getD (history.length - 2) 0) /
                  history.getD (history.length - 2) 0 * 100)))
      else Except.ok (none, none) := rfl

/-- Claim C6: when the raw record is empty (so the price-resolution chain
yields nothing) and the supplied trailing-close history is empty,
`fetch_market_data` on a valid ticker fails with the not-found envelope,
whose error message contains "not found". -/
theorem spec_C6 (ticker : String) (info : RawQuote) (history : List ℚ)
    (hv : ¬ invalidTicker (pyNormalizeTicker ticker))
    (hinfo : info = []) (hhist : history = []) :
    fetch_market_data ticker info history = notFoundResult (pyNormalizeTicker ticker) ∧
    (notFoundResult (pyNormalizeTicker ticker)).success = false ∧
    (notFoundResult (pyNormalizeTicker ticker)).data = none ∧
    ∃ pre tail, (notFoundResult (pyNormalizeTicker ticker)).error =
      some (pre ++ "not found" ++ tail) := by
  subst hinfo; subst hhist
  have hsplit : "\x27 not found. Please verify the symbol." =
      "\x27 " ++ ("not found" ++ ". Please verify the symbol.") := by decide
  refine ⟨?_, rfl, rfl,
    "Ticker \x27" ++ pyNormalizeTicker ticker ++ "\x27 ",
    ". Please verify the symbol.", ?_⟩
  · unfold fetch_market_data
    rw [if_neg hv]
    have hb : fetchBody (pyNormalizeTicker ticker) [] [] =
        Except.ok (notFoundResult (pyNormalizeTicker ticker)) := by
      unfold fetchBody
      rw [if_pos ⟨Or.inl rfl, rfl⟩]
    rw [hb]
  · simp only [notFoundResult, notFoundMsg, hsplit, strAppend_assoc]

/-- Claim C6 witness: the empty raw record with empty history on ticker
"AAPL" yields the failed not-found envelope. -/
theorem spec_C6_witness :
    ¬ invalidTicker (pyNormalizeTicker "AAPL") ∧
    fetch_market_data "AAPL" [] [] = notFoundResult (pyNormalizeTicker "AAPL") :=
  ⟨by decide, (spec_C6 "AAPL" [] [] (by decide) rfl rfl).1⟩

/-- Claim C7: `fetch_market_data` always returns an envelope, never
propagating an exception: when the body of the `try:` block raises, the
result is the `success = false` envelope whose error is the exception kind
followed by ": " and the message, and when the body returns normally its
envelope is passed through unchanged. -/
theorem spec_C7 (ticker : String) (info : RawQuote) (history : List ℚ)
    (hv : ¬ invalidTicker (pyNormalizeTicker ticker)) :
    (∀ e : PyExc, fetchBody (pyNormalizeTicker ticker) info history = Except.error e →
      fetch_market_data ticker info history =
        { success := false, ticker := pyNormalizeTicker ticker, data := none,
          error := some (e.kind ++ ": " ++ e.msg) }) ∧
    (∀ r : FetchResult, fetchBody (pyNormalizeTicker ticker) info history = Except.ok r →
      fetch_market_data ticker info history = r) := by
  constructor <;> intro x hx <;> unfold fetch_market_data <;> rw [if_neg hv, hx]

/-- Claim C7 witness: a truthy string price makes the body raise
`TypeError`, which is caught and rendered as "TypeError: ...". -/
theorem spec_C7_witness :
    ¬ invalidTicker (pyNormalizeTicker "AAPL") ∧
    fetchBody (pyNormalizeTicker "AAPL") [("regularMarketPrice", PyVal.vstr "abc")] [] =
      Except.error { kind := "TypeError",
                     msg := "type str doesn\x27t define __round__ method" } ∧
    fetch_market_data "AAPL" [("regularMarketPrice", PyVal.vstr "abc")] [] =
      { success := false, ticker := pyNormalizeTicker "AAPL", data := none,
        error := some ("TypeError" ++ ": " ++ "type str doesn\x27t define __round__ method") } := by
  refine ⟨by decide, by decide, ?_⟩
  exact (spec_C7 "AAPL" [("regularMarketPrice", PyVal.vstr "abc")] [] (by decide)).1
    { kind := "TypeError", msg := "type str doesn\x27t define __round__ method" } (by decide)

/-- Claim C4 counterexample: with history `[100, 100]` (two closes, zero
difference) the claim as stated predicts `price_change = round2 (100 - 100)
= 0.0`, but the code's `round(price_change, 2) if price_change else None`
guard is falsy at `0.0` and the field is null. -/
theorem spec_C4_counterexample :
    ((fetch_market_data "AAPL" [("regularMarketPrice", PyVal.vnum 100)]
        [100, 100]).data.map NormalizedData.price_change) = some none ∧
    ((fetch_market_data "AAPL" [("regularMarketPrice", PyVal.vnum 100)]
        [100, 100]).data.map NormalizedData.price_change) ≠
      some (some (round2 ((100:ℚ) - 100))) := by
  constructor
  · with_unfolding_all decide
  · with_unfolding_all decide

/-- Claim C4 (amended): with fewer than 2 closes both derived fields are
null; with at least 2 closes and a nonzero prior close, each field is the
2-decimal rounding of its value (`latest - prior`, and that difference
divided by the prior close times 100) when the unrounded value is nonzero,
and null when the difference is exactly zero (the code's truthiness guard
nulls out a zero change). -/
theorem spec_C4_amended :
    (∀ (t : String) (info : RawQuote) (hist : List ℚ) (d : NormalizedData),
      hist.length < 2 → (fetch_market_data t info hist).data = some d →
      d.price_change = none ∧ d.price_change_percent = none) ∧
    (∀ (t : String) (info : RawQuote) (pre : List ℚ) (a b : ℚ) (d : NormalizedData),
      a ≠ 0 → (fetch_market_data t info (pre ++ [a, b])).data = some d →
      (b - a = 0 → d.price_change = none ∧ d.price_change_percent = none) ∧
      (b - a ≠ 0 → d.price_change = some (round2 (b - a)) ∧
        d.price_change_percent = some (round2 ((b - a) / a * 100)))) := by
  constructor
  · intro t info hist d hlen hd
    obtain ⟨pc, pct, cpr, hp, _, hbd⟩ := data_some_shape t info hist d hd
    rw [priceChangeCalc_eq, if_neg (by omega)] at hp
    injection hp with hp2
    have hpc : pc = none := congrArg Prod.fst hp2.symm
    have hpct : pct = none := congrArg Prod.snd hp2.symm
    subst hbd; subst hpc; subst hpct
    exact ⟨rfl, rfl⟩
  · intro t info pre a b d ha hd
    obtain ⟨pc, pct, cpr, hp, _, hbd⟩ := data_some_shape t info (pre ++ [a, b]) d hd
    have hlen : (pre ++ [a, b]).length = pre.length + 2 := by simp
    have hprev : (pre ++ [a, b]).getD ((pre ++ [a, b]).length - 2) 0 = a := by
      rw [hlen, show pre.length + 2 - 2 = pre.length from by omega,
        List.getD_eq_getElem?_getD, List.getElem?_append_right (le_refl _)]
      simp
    have htoday : (pre ++ [a, b]).getD ((pre ++ [a, b]).length - 1) 0 = b := by
      rw [hlen, show pre.length + 2 - 1 = pre.length + 1 from by omega,
        List.getD_eq_getElem?_getD, List.getElem?_append_right (by omega)]
      rw [show pre.length + 1 - pre.length = 1 from by omega]
      simp
    rw [priceChangeCalc_eq, hprev, htoday, if_pos (by rw [hlen]; omega), if_neg ha] at hp
    injection hp with hp2
    have hpc : pc = (if b - a = 0 then none else some (round2 (b - a))) :=
      congrArg Prod.fst hp2.symm
    have hpct : pct =
        (if (b - a) / a * 100 = 0 then none else some (round2 ((b - a) / a * 100))) :=
      congrArg Prod.snd hp2.symm
    subst hbd
    constructor
    · intro hz
      have hzp : (b - a) / a * 100 = 0 := by rw [hz]; ring
      constructor
      · show pc = none
        rw [hpc, if_pos hz]
      · show pct = none
        rw [hpct, if_pos hzp]
    · intro hnz
      have hnzp : (b - a) / a * 100 ≠ 0 := mul_ne_zero (div_ne_zero hnz ha) (by norm_num)
      constructor
      · show pc = some (round2 (b - a))
        rw [hpc, if_neg hnz]
      · show pct = some (round2 ((b - a) / a * 100))
        rw [hpct, if_neg hnzp]

/-- Claim C4 witness: history `[100, 105]` gives `price_change = 5.0` and
`price_change_percent = 5.0`, via the amended theorem with its hypotheses
discharged at this input; and a one-close history gives null fields. -/
theorem spec_C4_amended_witness :
    (100:ℚ) ≠ 0 ∧ (105:ℚ) - 100 ≠ 0 ∧ ([100] : List ℚ).length < 2 ∧
    ((fetch_market_data "AAPL" [("regularMarketPrice", PyVal.vnum 100)]
        ([] ++ [100, 105])).data.map
      (fun d => (d.price_change, d.price_change_percent))) =
      some (some (round2 ((105:ℚ) - 100)), some (round2 (((105:ℚ) - 100) / 100 * 100))) ∧
    ((fetch_market_data "AAPL" [("regularMarketPrice", PyVal.vnum 100)]
        [100]).data.map
      (fun d => (d.price_change, d.price_change_percent))) = some (none, none) := by
  refine ⟨by norm_num, by norm_num, by norm_num, ?_, ?_⟩
  · cases hd : (fetch_market_data "AAPL" [("regularMarketPrice", PyVal.vnum 100)]
        ([] ++ [100, 105])).data with
    | none => exact absurd hd (by with_unfolding_all decide)
    | some d =>
      have h := (spec_C4_amended.2 "AAPL" [("regularMarketPrice", PyVal.vnum 100)]
        [] 100 105 d (by norm_num) hd).2 (by norm_num)
      show some (d.price_change, d.price_change_percent) = _
      rw [h.1, h.2]
  · cases hd : (fetch_market_data "AAPL" [("regularMarketPrice", PyVal.vnum 100)]
        [100]).data with
    | none => exact absurd hd (by with_unfolding_all decide)
    | some d =>
      have h := spec_C4_amended.1 "AAPL" [("regularMarketPrice", PyVal.vnum 100)]
        [100] d (by norm_num) hd
      show some (d.price_change, d.price_change_percent) = _
      rw [h.1, h.2]

/-- Claim C5 counterexample: with `regularMarketPrice = 0` (present and
non-null) and `currentPrice = 150`, the claim as stated predicts the first
non-null candidate `0` wins, but Python's `or` chain skips the falsy `0` and
the output `current_price` is `150.0` (neither null nor derived from `0`). -/
theorem spec_C5_counterexample :
    pyGet [("regularMarketPrice", PyVal.vnum 0), ("currentPrice", PyVal.vnum 150)]
      "regularMarketPrice" = PyVal.vnum 0 ∧
    PyVal.vnum 0 ≠ PyVal.vnone ∧
    ((fetch_market_data "AAPL"
        [("regularMarketPrice", PyVal.vnum 0), ("currentPrice", PyVal.vnum 150)]
        []).data.map NormalizedData.current_price) = some (some 150) ∧
    ((fetch_market_data "AAPL"
        [("regularMarketPrice", PyVal.vnum 0), ("currentPrice", PyVal.vnum 150)]
        []).data.map NormalizedData.current_price) ≠ some (some (round2 0)) ∧
    ((fetch_market_data "AAPL"
        [("regularMarketPrice", PyVal.vnum 0), ("currentPrice", PyVal.vnum 150)]
        []).data.map NormalizedData.current_price) ≠ some none := by
  refine ⟨by decide, by decide, ?_, ?_, ?_⟩
  · with_unfolding_all decide
  · with_unfolding_all decide
  · with_unfolding_all decide

/-- Claim C5 (amended): `current_price` is resolved by trying, in order,
`regularMarketPrice`, `currentPrice`, `previousClose`, with the first
truthy value winning (a present but zero or empty candidate is skipped,
not only a null one); on the success path a truthy numeric resolution is
rounded to 2 decimals into `current_price`, a falsy resolution leaves
`current_price` null, and the fetch may still be marked successful when
other fields exist (partial data is not an error). -/
theorem spec_C5_amended :
    (∀ a b : PyVal, a.truthy = true → pyOr a b = a) ∧
    (∀ a b : PyVal, a.truthy = false → pyOr a b = b) ∧
    (∀ (t : String) (info : RawQuote) (hist : List ℚ) (d : NormalizedData),
      (fetch_market_data t info hist).data = some d →
      ((resolvePrice info).truthy = false → d.current_price = none) ∧
      (∀ q : ℚ, resolvePrice info = PyVal.vnum q → q ≠ 0 →
        d.current_price = some (round2 q))) ∧
    (fetch_market_data "AAPL" [("sector", PyVal.vstr "Tech")] [100]).success = true ∧
    ((fetch_market_data "AAPL" [("sector", PyVal.vstr "Tech")] [100]).data.map
      NormalizedData.current_price) = some none := by
  refine ⟨fun a b h => by simp [pyOr, h], fun a b h => by simp [pyOr, h], ?_, ?_, ?_⟩
  · intro t info hist d hd
    obtain ⟨pc, pct, cpr, _, hr, hbd⟩ := data_some_shape t info hist d hd
    constructor
    · intro hfalsy
      unfold pyRoundPrice at hr
      rw [hfalsy] at hr
      simp only [Bool.false_eq_true, if_false] at hr
      injection hr with hr2
      subst hbd
      show cpr = none
      exact hr2.symm
    · intro q hq hqne
      unfold pyRoundPrice at hr
      rw [hq] at hr
      have htr : (PyVal.vnum q).truthy = true := by simp [PyVal.truthy, hqne]
      rw [htr] at hr
      simp only [if_true] at hr
      injection hr with hr2
      subst hbd
      show cpr = some (round2 q)
      exact hr2.symm
  · with_unfolding_all decide
  · with_unfolding_all decide

/-- Claim C5 witness: with only `previousClose = 100` present the chain
falls through to the third candidate, and the success-path field is its
rounding; the truthiness facts are instantiated on the zero-skip example. -/
theorem spec_C5_amended_witness :
    (PyVal.vnum 0).truthy = false ∧
    pyOr (PyVal.vnum 0) (PyVal.vnum 150) = PyVal.vnum 150 ∧
    (PyVal.vnum 150).truthy = true ∧
    pyOr (PyVal.vnum 150) PyVal.vnone = PyVal.vnum 150 ∧
    resolvePrice [("previousClose", PyVal.vnum 100)] = PyVal.vnum 100 ∧
    (100:ℚ) ≠ 0 ∧
    ((fetch_market_data "AAPL" [("previousClose", PyVal.vnum 100)] [5]).data.map
      NormalizedData.current_price) = some (some (round2 100)) := by
  refine ⟨by decide, spec_C5_amended.2.1 (PyVal.vnum 0) (PyVal.vnum 150) (by decide),
    by decide, spec_C5_amended.1 (PyVal.vnum 150) PyVal.vnone (by decide),
    by decide, by norm_num, ?_⟩
  cases hd : (fetch_market_data "AAPL" [("previousClose", PyVal.vnum 100)] [5]).data with
  | none => exact absurd hd (by with_unfolding_all decide)
  | some d =>
    have h := (spec_C5_amended.2.2.1 "AAPL" [("previousClose", PyVal.vnum 100)] [5] d hd).2
      100 (by decide) (by norm_num)
    exact congrArg some h

/-! ## Lemmas about the section parser -/

theorem findFrom_of_isPrefixOf (pat s : List Char) (h : pat.isPrefixOf s = true) :
    findFrom pat s = some 0 := by
  cases s with
  | nil => unfold findFrom; rw [if_pos h]
  | cons c t => unfold findFrom; rw [if_pos h]

theorem findFrom_cons (pat : List Char) (c : Char) (t : List Char) :
    findFrom pat (c :: t) =
      if pat.isPrefixOf (c :: t) = true then some 0
      else (findFrom pat t).map (· + 1) := rfl

theorem findFrom_append_of_cleanAt (pat xs ys : List Char) (h : CleanAt pat xs ys) :
    findFrom pat (xs ++ ys) = (findFrom pat ys).map (· + xs.length) := by
  induction xs with
  | nil =>
    rw [List.nil_append]
    cases findFrom pat ys <;> simp
  | cons c t ih =>
    have h0 : ¬ pat.isPrefixOf (c :: (t ++ ys)) = true := by
      have := h 0 (by simp)
      simpa using this
    have ht : CleanAt pat t ys := by
      intro j hj
      have := h (j + 1) (by simp only [List.length_cons]; omega)
      simpa using this
    show findFrom pat (c :: (t ++ ys)) = _
    rw [findFrom_cons, if_neg h0, ih ht]
    cases findFrom pat ys with
    | none => rfl
    | some v =>
      show some (v + t.length + 1) = some (v + (t.length + 1))
      exact congrArg some (Nat.add_assoc v t.length 1)

theorem cleanAt_append (pat A B ys : List Char)
    (hA : CleanAt pat A (B ++ ys)) (hB : CleanAt pat B ys) :
    CleanAt pat (A ++ B) ys := by
  intro j hj
  rw [List.drop_append_eq_append_drop]
  by_cases hle : j < A.length
  · have h0 : B.drop (j - A.length) = B := by
      rw [Nat.sub_eq_zero_of_le (le_of_lt hle)]
      rfl
    rw [h0, List.append_assoc]
    exact hA j hle
  · have hA0 : A.drop j = [] := List.drop_eq_nil_of_le (by omega)
    rw [hA0, List.nil_append]
    rw [List.length_append] at hj
    exact hB (j - A.length) (by omega)

theorem isPrefixOf_of_append_long {pat A : List Char} (ys : List Char)
    (h : pat.isPrefixOf (A ++ ys) = true) (hl : pat.length ≤ A.length) :
    pat.isPrefixOf A = true := by
  rw [ List.isPrefixOf_iff_prefix] at h ⊢
  have he : pat = (A ++ ys).take pat.length := List.prefix_iff_eq_take.mp h
  rw [List.take_append_eq_append_take, Nat.sub_eq_zero_of_le hl, List.take_zero,
    List.append_nil] at he
  rw [he]
  exact List.take_prefix _ _

theorem prefix_rev_of_append {pat A : List Char} (ys : List Char)
    (h : pat.isPrefixOf (A ++ ys) = true) (hl : A.length ≤ pat.length) :
    A.isPrefixOf pat = true := by
  rw [ List.isPrefixOf_iff_prefix] at h ⊢
  obtain ⟨tl, htl⟩ := h
  have he : A = (A ++ ys).take A.length := (List.take_left A ys).symm
  rw [← htl, List.take_append_eq_append_take, Nat.sub_eq_zero_of_le hl,
    List.take_zero, List.append_nil] at he
  rw [he]
  exact List.take_prefix _ _

theorem cleanAt_of_cleanCheck (pat xs : List Char) (h : cleanCheck pat xs = true)
    (ys : List Char) : CleanAt pat xs ys := by
  intro j hj hpre
  have hj2 := (List.all_eq_true.mp h) j (List.mem_range.mpr hj)
  by_cases hl : pat.length ≤ (xs.drop j).length
  · rw [if_pos hl] at hj2
    have := isPrefixOf_of_append_long ys hpre hl
    rw [this] at hj2
    exact absurd hj2 (by simp)
  · rw [if_neg hl] at hj2
    have := prefix_rev_of_append ys hpre (by omega)
    rw [this] at hj2
    exact absurd hj2 (by simp)

theorem cleanAt_no_hash (pat xs ys : List Char) (hp : pat.head? = some '#')
    (hx : ∀ c ∈ xs, c ≠ '#') : CleanAt pat xs ys := by
  intro j hj hpre
  rw [ List.isPrefixOf_iff_prefix] at hpre
  obtain ⟨tl, htl⟩ := hpre
  cases hpatc : pat with
  | nil => rw [hpatc] at hp; exact absurd hp (by simp)
  | cons p0 pr =>
    rw [hpatc] at hp htl
    have hp0 : p0 = '#' := by
      have : some p0 = some '#' := by rw [← hp]; rfl
      injection this
    cases hdx : xs.drop j with
    | nil =>
      have hlen : (xs.drop j).length = 0 := by rw [hdx]; rfl
      rw [List.length_drop] at hlen
      omega
    | cons x0 xr =>
      rw [hdx] at htl
      simp only [List.cons_append] at htl
      have hx0 : p0 = x0 := by injection htl
      have hmem : x0 ∈ xs := by
        refine List.drop_subset j xs ?_
        rw [hdx]
        exact List.mem_cons_self _ _
      exact hx x0 hmem (by rw [← hx0, hp0])

theorem cleanAt_nlhh (b ys : List Char) (hb : ∀ c ∈ b, c ≠ '#')
    (hy : ys.head? ≠ some '#') : CleanAt ['\n', '#', '#'] b ys := by
  intro j hj hpre
  rw [ List.isPrefixOf_iff_prefix] at hpre
  obtain ⟨tl, htl⟩ := hpre
  cases hdx : b.drop j with
  | nil =>
    have hlen : (b.drop j).length = 0 := by rw [hdx]; rfl
    rw [List.length_drop] at hlen
    omega
  | cons x0 xr =>
    rw [hdx] at htl
    simp only [List.cons_append] at htl
    have hrest : ['#', '#'] ++ tl = xr ++ ys := by
      have := htl
      injection this
    cases hxr : xr with
    | nil =>
      rw [hxr, List.nil_append] at hrest
      apply hy
      rw [← hrest]
      rfl
    | cons x1 xr2 =>
      rw [hxr] at hrest
      simp only [List.cons_append] at hrest
      have hx1 : '#' = x1 := by injection hrest
      have hmem : x1 ∈ b := by
        refine List.drop_subset j b ?_
        rw [hdx, hxr]
        exact List.mem_cons_of_mem _ (List.mem_cons_self _ _)
      exact hb x1 hmem hx1.symm

theorem pyStrip_append_nl (l : List Char) : pyStrip (l ++ ['\n']) = pyStrip l := by
  unfold pyStrip
  have h1 : (l ++ ['\n']).reverse = '\n' :: l.reverse := by simp
  rw [h1, List.dropWhile_cons, if_pos (by decide)]

theorem pyStrip_chop (l : List Char) : pyStrip (chopTrailingNl l) = pyStrip l := by
  unfold chopTrailingNl
  split_ifs with h
  · have hne : l ≠ [] := by
      intro hc
      rw [hc] at h
      exact absurd h (by simp)
    have hlast : l.getLast hne = '\n' := by
      have h2 := List.getLast?_eq_getLast l hne
      rw [h2] at h
      exact Option.some.inj h
    have hdl : l.dropLast ++ ['\n'] = l := by
      rw [← hlast]
      exact List.dropLast_append_getLast hne
    calc pyStrip l.dropLast = pyStrip (l.dropLast ++ ['\n']) := (pyStrip_append_nl _).symm
    _ = pyStrip l := by rw [hdl]
  · rfl

theorem findFrom_isPrefixOf_drop (pat s : List Char) (i : Nat)
    (h : findFrom pat s = some i) : pat.isPrefixOf (s.drop i) = true := by
  induction s generalizing i with
  | nil =>
    unfold findFrom at h
    split_ifs at h with hp
    rw [← Option.some.inj h]
    exact hp
  | cons c t ih =>
    rw [findFrom_cons] at h
    split_ifs at h with hp
    · rw [← Option.some.inj h]
      exact hp
    · cases hf : findFrom pat t with
      | none => rw [hf] at h; exact absurd h (by simp)
      | some k =>
        rw [hf] at h
        have h2 : some (k + 1) = some i := h
        rw [← Option.some.inj h2]
        exact ih k hf

theorem mem_dropWhile_of_not (p : Char → Bool) (l : List Char) (c : Char)
    (hc : c ∈ l) (hp : p c = false) : c ∈ l.dropWhile p := by
  induction l with
  | nil => cases hc
  | cons a t ih =>
    rw [List.dropWhile_cons]
    split_ifs with ha
    · rcases List.mem_cons.mp hc with h1 | h1
      · subst h1
        rw [hp] at ha
        cases ha
      · exact ih h1
    · exact hc

theorem pyStrip_ne_nil (l : List Char) (c : Char) (hc : c ∈ l)
    (hp : pySpace c = false) : pyStrip l ≠ [] := by
  intro hnil
  unfold pyStrip at hnil
  rw [List.dropWhile_eq_nil_iff] at hnil
  have h1 : c ∈ l.reverse := List.mem_reverse.mpr hc
  have h2 : c ∈ l.reverse.dropWhile pySpace := mem_dropWhile_of_not _ _ _ h1 hp
  have h3 : c ∈ (l.reverse.dropWhile pySpace).reverse := List.mem_reverse.mpr h2
  have h4 := hnil c h3
  rw [hp] at h4
  cases h4

theorem patOf_split (h : String) (hh : (patOf h).take 2 = ['#', '#']) :
    patOf h = '#' :: '#' :: hdrTail h := by
  have := List.take_append_drop 2 (patOf h)
  rw [hh] at this
  exact this.symm

theorem matchMid_result (h : String) (P b R2 : List Char)
    (hclean : CleanAt (patOf h) P (patOf h ++ (b ++ ('\n' :: '#' :: '#' :: R2))))
    (hb : ∀ c ∈ b, c ≠ '#') :
    matchSectionMid h (P ++ (patOf h ++ (b ++ ('\n' :: '#' :: '#' :: R2)))) =
      some (pyStrip b) := by
  have hanchor : findFrom (patOf h)
      (P ++ (patOf h ++ (b ++ ('\n' :: '#' :: '#' :: R2)))) = some P.length := by
    rw [findFrom_append_of_cleanAt _ _ _ hclean,
      findFrom_of_isPrefixOf _ _ (by
        rw [ List.isPrefixOf_iff_prefix]
        exact List.prefix_append _ _)]
    simp
  have hdrop : (P ++ (patOf h ++ (b ++ ('\n' :: '#' :: '#' :: R2)))).drop
      (P.length + h.length + 1) = b ++ ('\n' :: '#' :: '#' :: R2) := by
    have hlen : P.length + h.length + 1 = (P ++ patOf h).length := by
      simp [patOf]
      omega
    rw [hlen, ← List.append_assoc, List.drop_left]
  have hterm : findFrom ['\n', '#', '#'] (b ++ ('\n' :: '#' :: '#' :: R2)) =
      some b.length := by
    rw [findFrom_append_of_cleanAt _ _ _ (cleanAt_nlhh b _ hb (by simp)),
      findFrom_of_isPrefixOf _ _ (by
        rw [ List.isPrefixOf_iff_prefix]
        exact ⟨R2, rfl⟩)]
    simp
  unfold matchSectionMid
  rw [show (h.toList ++ ['\n'] : List Char) = patOf h from rfl, hanchor]
  dsimp only
  rw [hdrop, hterm]
  dsimp only
  rw [List.take_left]

theorem matchEnd_result (h : String) (P b : List Char)
    (hclean : CleanAt (patOf h) P (patOf h ++ b)) :
    matchSectionEnd h (P ++ (patOf h ++ b)) = some (pyStrip b) := by
  have hanchor : findFrom (patOf h) (P ++ (patOf h ++ b)) = some P.length := by
    rw [findFrom_append_of_cleanAt _ _ _ hclean,
      findFrom_of_isPrefixOf _ _ (by
        rw [ List.isPrefixOf_iff_prefix]
        exact List.prefix_append _ _)]
    simp
  have hdrop : (P ++ (patOf h ++ b)).drop (P.length + h.length + 1) = b := by
    have hlen : P.length + h.length + 1 = (P ++ patOf h).length := by
      simp [patOf]
      omega
    rw [hlen, ← List.append_assoc, List.drop_left]
  unfold matchSectionEnd
  rw [show (h.toList ++ ['\n'] : List Char) = patOf h from rfl, hanchor]
  dsimp only
  rw [hdrop, pyStrip_chop]

theorem cleanAt_seg (pat : List Char) (hs : String) (b ys : List Char)
    (hcheck : cleanCheck pat (patOf hs) = true)
    (hp : pat.head? = some '#')
    (hb : ∀ c ∈ b, c ≠ '#') :
    CleanAt pat (patOf hs ++ (b ++ ['\n'])) ys :=
  cleanAt_append _ _ _ _ (cleanAt_of_cleanCheck _ _ hcheck _)
    (cleanAt_no_hash _ _ _ hp (by
      intro c hc
      rcases List.mem_append.mp hc with h1 | h1
      · exact hb c h1
      · simp at h1
        subst h1
        decide))

theorem sec1_eq (b1 b2 b3 b4 b5 b6 : List Char)
    (hb1 : ∀ c ∈ b1, c ≠ '#') :
    matchSectionMid hdr1 (mkReportDoc b1 b2 b3 b4 b5 b6) = some (pyStrip b1) := by
  have hsplit : patOf hdr2 = '#' :: '#' :: hdrTail hdr2 := patOf_split hdr2 (by decide)
  have hshape : mkReportDoc b1 b2 b3 b4 b5 b6 =
      [] ++ (patOf hdr1 ++ (b1 ++ ('\n' :: '#' :: '#' ::
        (hdrTail hdr2 ++ (b2 ++ ['\n'] ++ patOf hdr3 ++ (b3 ++ ['\n']) ++ patOf hdr4 ++
          (b4 ++ ['\n']) ++ patOf hdr5 ++ (b5 ++ ['\n']) ++ patOf hdr6 ++ b6))))) := by
    rw [mkReportDoc, hsplit]
    simp [List.append_assoc]
  rw [hshape]
  refine matchMid_result hdr1 _ _ _ ?_ hb1
  intro j hj
  simp at hj

theorem sec2_eq (b1 b2 b3 b4 b5 b6 : List Char)
    (hb1 : ∀ c ∈ b1, c ≠ '#') (hb2 : ∀ c ∈ b2, c ≠ '#') :
    matchSectionMid hdr2 (mkReportDoc b1 b2 b3 b4 b5 b6) = some (pyStrip b2) := by
  have hsplit : patOf hdr3 = '#' :: '#' :: hdrTail hdr3 := patOf_split hdr3 (by decide)
  have hshape : mkReportDoc b1 b2 b3 b4 b5 b6 =
      (patOf hdr1 ++ (b1 ++ ['\n'])) ++ (patOf hdr2 ++ (b2 ++ ('\n' :: '#' :: '#' ::
        (hdrTail hdr3 ++ (b3 ++ ['\n'] ++ patOf hdr4 ++ (b4 ++ ['\n']) ++ patOf hdr5 ++
          (b5 ++ ['\n']) ++ patOf hdr6 ++ b6))))) := by
    rw [mkReportDoc, hsplit]
    simp [List.append_assoc]
  rw [hshape]
  refine matchMid_result hdr2 _ _ _ ?_ hb2
  exact cleanAt_seg _ hdr1 b1 _ (by decide) (by decide) hb1

theorem sec3_eq (b1 b2 b3 b4 b5 b6 : List Char)
    (hb1 : ∀ c ∈ b1, c ≠ '#') (hb2 : ∀ c ∈ b2, c ≠ '#')
    (hb3 : ∀ c ∈ b3, c ≠ '#') :
    matchSectionMid hdr3 (mkReportDoc b1 b2 b3 b4 b5 b6) = some (pyStrip b3) := by
  have hsplit : patOf hdr4 = '#' :: '#' :: hdrTail hdr4 := patOf_split hdr4 (by decide)
  have hshape : mkReportDoc b1 b2 b3 b4 b5 b6 =
      ((patOf hdr1 ++ (b1 ++ ['\n'])) ++ (patOf hdr2 ++ (b2 ++ ['\n']))) ++
        (patOf hdr3 ++ (b3 ++ ('\n' :: '#' :: '#' ::
          (hdrTail hdr4 ++ (b4 ++ ['\n'] ++ patOf hdr5 ++ (b5 ++ ['\n']) ++
            patOf hdr6 ++ b6))))) := by
    rw [mkReportDoc, hsplit]
    simp [List.append_assoc]
  rw [hshape]
  refine matchMid_result hdr3 _ _ _ ?_ hb3
  exact cleanAt_append _ _ _ _
    (cleanAt_seg _ hdr1 b1 _ (by decide) (by decide) hb1)
    (cleanAt_seg _ hdr2 b2 _ (by decide) (by decide) hb2)

theorem sec4_eq (b1 b2 b3 b4 b5 b6 : List Char)
    (hb1 : ∀ c ∈ b1, c ≠ '#') (hb2 : ∀ c ∈ b2, c ≠ '#')
    (hb3 : ∀ c ∈ b3, c ≠ '#') (hb4 : ∀ c ∈ b4, c ≠ '#') :
    matchSectionMid hdr4 (mkReportDoc b1 b2 b3 b4 b5 b6) = some (pyStrip b4) := by
  have hsplit : patOf hdr5 = '#' :: '#' :: hdrTail hdr5 := patOf_split hdr5 (by decide)
  have hshape : mkReportDoc b1 b2 b3 b4 b5 b6 =
      ((patOf hdr1 ++ (b1 ++ ['\n'])) ++ ((patOf hdr2 ++ (b2 ++ ['\n'])) ++
        (patOf hdr3 ++ (b3 ++ ['\n'])))) ++
        (patOf hdr4 ++ (b4 ++ ('\n' :: '#' :: '#' ::
          (hdrTail hdr5 ++ (b5 ++ ['\n'] ++ patOf hdr6 ++ b6))))) := by
    rw [mkReportDoc, hsplit]
    simp [List.append_assoc]
  rw [hshape]
  refine matchMid_result hdr4 _ _ _ ?_ hb4
  exact cleanAt_append _ _ _ _
    (cleanAt_seg _ hdr1 b1 _ (by decide) (by decide) hb1)
    (cleanAt_append _ _ _ _
      (cleanAt_seg _ hdr2 b2 _ (by decide) (by decide) hb2)
      (cleanAt_seg _ hdr3 b3 _ (by decide) (by decide) hb3))

theorem sec5_eq (b1 b2 b3 b4 b5 b6 : List Char)
    (hb1 : ∀ c ∈ b1, c ≠ '#') (hb2 : ∀ c ∈ b2, c ≠ '#')
    (hb3 : ∀ c ∈ b3, c ≠ '#') (hb4 : ∀ c ∈ b4, c ≠ '#')
    (hb5 : ∀ c ∈ b5, c ≠ '#') :
    matchSectionMid hdr5 (mkReportDoc b1 b2 b3 b4 b5 b6) = some (pyStrip b5) := by
  have hsplit : patOf hdr6 = '#' :: '#' :: hdrTail hdr6 := patOf_split hdr6 (by decide)
  have hshape : mkReportDoc b1 b2 b3 b4 b5 b6 =
      ((patOf hdr1 ++ (b1 ++ ['\n'])) ++ ((patOf hdr2 ++ (b2 ++ ['\n'])) ++
        ((patOf hdr3 ++ (b3 ++ ['\n'])) ++ (patOf hdr4 ++ (b4 ++ ['\n']))))) ++
        (patOf hdr5 ++ (b5 ++ ('\n' :: '#' :: '#' :: (hdrTail hdr6 ++ b6)))) := by
    rw [mkReportDoc, hsplit]
    simp [List.append_assoc]
  rw [hshape]
  refine matchMid_result hdr5 _ _ _ ?_ hb5
  exact cleanAt_append _ _ _ _
    (cleanAt_seg _ hdr1 b1 _ (by decide) (by decide) hb1)
    (cleanAt_append _ _ _ _
      (cleanAt_seg _ hdr2 b2 _ (by decide) (by decide) hb2)
      (cleanAt_append _ _ _ _
        (cleanAt_seg _ hdr3 b3 _ (by decide) (by decide) hb3)
        (cleanAt_seg _ hdr4 b4 _ (by decide) (by decide) hb4)))

theorem sec6_eq (b1 b2 b3 b4 b5 b6 : List Char)
    (hb1 : ∀ c ∈ b1, c ≠ '#') (hb2 : ∀ c ∈ b2, c ≠ '#')
    (hb3 : ∀ c ∈ b3, c ≠ '#') (hb4 : ∀ c ∈ b4, c ≠ '#')
    (hb5 : ∀ c ∈ b5, c ≠ '#') :
    matchSectionEnd hdr6 (mkReportDoc b1 b2 b3 b4 b5 b6) = some (pyStrip b6) := by
  have hshape : mkReportDoc b1 b2 b3 b4 b5 b6 =
      ((patOf hdr1 ++ (b1 ++ ['\n'])) ++ ((patOf hdr2 ++ (b2 ++ ['\n'])) ++
        ((patOf hdr3 ++ (b3 ++ ['\n'])) ++ ((patOf hdr4 ++ (b4 ++ ['\n'])) ++
          (patOf hdr5 ++ (b5 ++ ['\n'])))))) ++ (patOf hdr6 ++ b6) := by
    rw [mkReportDoc]
    simp [List.append_assoc]
  rw [hshape]
  refine matchEnd_result hdr6 _ _ ?_
  exact cleanAt_append _ _ _ _
    (cleanAt_seg _ hdr1 b1 _ (by decide) (by decide) hb1)
    (cleanAt_append _ _ _ _
      (cleanAt_seg _ hdr2 b2 _ (by decide) (by decide) hb2)
      (cleanAt_append _ _ _ _
        (cleanAt_seg _ hdr3 b3 _ (by decide) (by decide) hb3)
        (cleanAt_append _ _ _ _
          (cleanAt_seg _ hdr4 b4 _ (by decide) (by decide) hb4)
          (cleanAt_seg _ hdr5 b5 _ (by decide) (by decide) hb5))))

/-- Claim C8: for every well-formed report document built from the six
exact headers in order with arbitrary hash-free section bodies,
`parse_report_sections` maps each of sections 1-5 to the text between its
header line and the next line starting with "##" (the next header), trimmed
of surrounding whitespace, and maps section 6 to the trimmed text from its
header line to the end of the document. -/
theorem spec_C8 (b1 b2 b3 b4 b5 b6 : List Char)
    (hb1 : ∀ c ∈ b1, c ≠ '#') (hb2 : ∀ c ∈ b2, c ≠ '#')
    (hb3 : ∀ c ∈ b3, c ≠ '#') (hb4 : ∀ c ∈ b4, c ≠ '#')
    (hb5 : ∀ c ∈ b5, c ≠ '#') :
    parse_report_sections (String.mk (mkReportDoc b1 b2 b3 b4 b5 b6)) =
      { executiveSummary := String.mk (pyStrip b1)
      , companySnapshot := String.mk (pyStrip b2)
      , financialIndicators := String.mk (pyStrip b3)
      , newsSentiment := String.mk (pyStrip b4)
      , risksOpportunities := String.mk (pyStrip b5)
      , finalPerspective := String.mk (pyStrip b6) } := by
  unfold parse_report_sections
  rw [show (String.mk (mkReportDoc b1 b2 b3 b4 b5 b6)).toList =
      mkReportDoc b1 b2 b3 b4 b5 b6 from rfl]
  rw [sec1_eq b1 b2 b3 b4 b5 b6 hb1, sec2_eq b1 b2 b3 b4 b5 b6 hb1 hb2,
    sec3_eq b1 b2 b3 b4 b5 b6 hb1 hb2 hb3, sec4_eq b1 b2 b3 b4 b5 b6 hb1 hb2 hb3 hb4,
    sec5_eq b1 b2 b3 b4 b5 b6 hb1 hb2 hb3 hb4 hb5,
    sec6_eq b1 b2 b3 b4 b5 b6 hb1 hb2 hb3 hb4 hb5]
  rfl

set_option maxRecDepth 40000 in
/-- Claim C8 witness: the round-trip scenario with bodies AAA through FFF
parses to the six bodies. -/
theorem spec_C8_witness :
    (∀ c ∈ ("AAA").toList, c ≠ '#') ∧
    parse_report_sections (String.mk (mkReportDoc ("AAA").toList ("BBB").toList
        ("CCC").toList ("DDD").toList ("EEE").toList ("FFF").toList)) =
      { executiveSummary := "AAA", companySnapshot := "BBB",
        financialIndicators := "CCC", newsSentiment := "DDD",
        risksOpportunities := "EEE", finalPerspective := "FFF" } := by
  refine ⟨by decide, ?_⟩
  rw [spec_C8 ("AAA").toList ("BBB").toList ("CCC").toList ("DDD").toList
    ("EEE").toList ("FFF").toList (by decide) (by decide) (by decide) (by decide) (by decide)]
  decide

set_option maxRecDepth 40000 in
/-- Claim C9: on every input document `parse_report_sections` returns the
fixed six-key mapping (the `ReportSections` record, whose six fields are
strings by construction) and never fails; whenever a section pattern does
not match -- the exact case-sensitive header line is absent, or for
sections 1-5 no later newline-`##` marker follows it -- that key keeps its
distinct per-section default placeholder; and the scenario document missing
section 3 entirely parses all other sections normally while Financial
Indicators stays "No data available.". -/
theorem spec_C9 (report_text : String) :
    ((matchSectionMid hdr1 report_text.toList = none →
      (parse_report_sections report_text).executiveSummary = "No summary available.") ∧
     (matchSectionMid hdr2 report_text.toList = none →
      (parse_report_sections report_text).companySnapshot = "No snapshot available.") ∧
     (matchSectionMid hdr3 report_text.toList = none →
      (parse_report_sections report_text).financialIndicators = "No data available.") ∧
     (matchSectionMid hdr4 report_text.toList = none →
      (parse_report_sections report_text).newsSentiment = "No news available.") ∧
     (matchSectionMid hdr5 report_text.toList = none →
      (parse_report_sections report_text).risksOpportunities = "No analysis available.") ∧
     (matchSectionEnd hdr6 report_text.toList = none →
      (parse_report_sections report_text).finalPerspective = "No conclusion available.")) ∧
    parse_report_sections missing3Doc =
      { executiveSummary := "AAA", companySnapshot := "BBB",
        financialIndicators := "No data available.", newsSentiment := "DDD",
        risksOpportunities := "EEE", finalPerspective := "FFF" } := by
  refine ⟨⟨?_, ?_, ?_, ?_, ?_, ?_⟩, by decide⟩ <;>
    intro hm <;> unfold parse_report_sections <;> rw [hm] <;> rfl

set_option maxRecDepth 40000 in
/-- Claim C9 witness: on the empty document no pattern matches and every
key holds its placeholder, via the theorem with each hypothesis discharged;
the missing-section-3 scenario is part of the theorem itself. -/
theorem spec_C9_witness :
    (parse_report_sections "").executiveSummary = "No summary available." ∧
    (parse_report_sections "").companySnapshot = "No snapshot available." ∧
    (parse_report_sections "").financialIndicators = "No data available." ∧
    (parse_report_sections "").newsSentiment = "No news available." ∧
    (parse_report_sections "").risksOpportunities = "No analysis available." ∧
    (parse_report_sections "").finalPerspective = "No conclusion available." :=
  ⟨(spec_C9 "").1.1 (by decide), (spec_C9 "").1.2.1 (by decide),
    (spec_C9 "").1.2.2.1 (by decide), (spec_C9 "").1.2.2.2.1 (by decide),
    (spec_C9 "").1.2.2.2.2.1 (by decide), (spec_C9 "").1.2.2.2.2.2 (by decide)⟩

theorem string_mk_ne_empty (l : List Char) (h : l ≠ []) : String.mk l ≠ "" := by
  intro hc
  exact h (congrArg String.data hc)

theorem sectionValue_mid_ne_empty (h : String) (doc : List Char) (i : Nat) (dflt : String)
    (hd : dflt ≠ "")
    (hfind : findFrom (patOf h) doc = some i)
    (hsharp : (doc.drop (i + h.length + 1)).take 2 = ['#', '#']) :
    sectionValue (matchSectionMid h doc) dflt ≠ "" := by
  have ht : doc.drop (i + h.length + 1) =
      '#' :: '#' :: (doc.drop (i + h.length + 1)).drop 2 := by
    conv_lhs => rw [← List.take_append_drop 2 (doc.drop (i + h.length + 1))]
    rw [hsharp]
    rfl
  unfold matchSectionMid
  rw [show (h.toList ++ ['\n'] : List Char) = patOf h from rfl, hfind]
  dsimp only
  cases hj : findFrom ['\n', '#', '#'] (doc.drop (i + h.length + 1)) with
  | none => exact hd
  | some j =>
    have hpre := findFrom_isPrefixOf_drop _ _ _ hj
    cases j with
    | zero =>
      exfalso
      rw [ht] at hpre
      rw [ List.isPrefixOf_iff_prefix] at hpre
      obtain ⟨tl, htl⟩ := hpre
      simp only [List.cons_append] at htl
      have hcc : '\n' = '#' := by injection htl
      exact absurd hcc (by decide)
    | succ j2 =>
      show String.mk (pyStrip ((doc.drop (i + h.length + 1)).take (j2 + 1))) ≠ ""
      apply string_mk_ne_empty
      apply pyStrip_ne_nil _ '#' _ (by decide)
      rw [ht, List.take_succ_cons]
      exact List.mem_cons_self _ _

set_option maxRecDepth 40000 in
/-- Claim C10: whenever one of the section 1-5 headers is found but is
immediately followed by another line starting with "##" (an empty section
body), `parse_report_sections` never maps that section to the empty string:
either the lazy capture extends past the adjacent header to a later
newline-`##` (the captured text then begins with "#"), or no such marker
follows and the section keeps its non-empty default placeholder; on the
demonstration document the Executive Summary value is the literal next
header line "## 2. Company Snapshot" together with the following body. -/
theorem spec_C10 :
    (∀ (report_text : String) (i : Nat),
      (findFrom (patOf hdr1) report_text.toList = some i →
        (report_text.toList.drop (i + hdr1.length + 1)).take 2 = ['#', '#'] →
        (parse_report_sections report_text).executiveSummary ≠ "") ∧
      (findFrom (patOf hdr2) report_text.toList = some i →
        (report_text.toList.drop (i + hdr2.length + 1)).take 2 = ['#', '#'] →
        (parse_report_sections report_text).companySnapshot ≠ "") ∧
      (findFrom (patOf hdr3) report_text.toList = some i →
        (report_text.toList.drop (i + hdr3.length + 1)).take 2 = ['#', '#'] →
        (parse_report_sections report_text).financialIndicators ≠ "") ∧
      (findFrom (patOf hdr4) report_text.toList = some i →
        (report_text.toList.drop (i + hdr4.length + 1)).take 2 = ['#', '#'] →
        (parse_report_sections report_text).newsSentiment ≠ "") ∧
      (findFrom (patOf hdr5) report_text.toList = some i →
        (report_text.toList.drop (i + hdr5.length + 1)).take 2 = ['#', '#'] →
        (parse_report_sections report_text).risksOpportunities ≠ "")) ∧
    (parse_report_sections c10Doc).executiveSummary = "## 2. Company Snapshot\nBBB" := by
  refine ⟨?_, by decide⟩
  intro rt i
  refine ⟨fun hf hs => ?_, fun hf hs => ?_, fun hf hs => ?_, fun hf hs => ?_,
    fun hf hs => ?_⟩
  · exact sectionValue_mid_ne_empty hdr1 rt.toList i _ (by decide) hf hs
  · exact sectionValue_mid_ne_empty hdr2 rt.toList i _ (by decide) hf hs
  · exact sectionValue_mid_ne_empty hdr3 rt.toList i _ (by decide) hf hs
  · exact sectionValue_mid_ne_empty hdr4 rt.toList i _ (by decide) hf hs
  · exact sectionValue_mid_ne_empty hdr5 rt.toList i _ (by decide) hf hs

set_option maxRecDepth 40000 in
/-- Claim C10 witness: on the demonstration document the Executive Summary
header is found at position 0, the next line starts with "##", and the
parsed value is non-empty, via the theorem with its hypotheses discharged. -/
theorem spec_C10_witness :
    findFrom (patOf hdr1) c10Doc.toList = some 0 ∧
    (c10Doc.toList.drop (0 + hdr1.length + 1)).take 2 = ['#', '#'] ∧
    (parse_report_sections c10Doc).executiveSummary ≠ "" :=
  ⟨by decide, by decide, (spec_C10.1 c10Doc 0).1 (by decide) (by decide)⟩
